import Mathlib

/-!
Verification of the Document Indexing & Retrieval Engine of the
RAG_PDF_READER repository, against its natural-language specification.

The Python sources are shallowly embedded below.  External capabilities
(the sentence-transformer encoder, the tiktoken tokenizer, the PyMuPDF
extractor, the OpenAI generation call) are taken as function parameters of
the embedded operations, exactly at the boundaries where the Python code
calls them; everything the repository itself computes (filtering, FAISS
flat-index exact search semantics including its `-1` padding, Python list
indexing and slicing, the cache logic, the sliding window) is modelled
directly from the source.
-/

/-- Python runtime errors that the embedded code paths can raise.
`typeError` models `TypeError` (e.g. `int <= None`), `indexError` models
`IndexError` (list index out of range, and `numpy` shape access on an
empty array). -/
inductive PyErr where
  | typeError
  | indexError
deriving DecidableEq, Repr

/-- A chunk-metadata record as produced by
`embeddings/generate_embeddings.py::process_single_pdf`:
`{"chunk": ..., "source": ..., "page": ..., "clause_number": ...}`. -/
structure Meta where
  chunk : String
  source : String
  page : Option Int
  clause_number : Option String
deriving DecidableEq, Repr

/-- Default record used with `List.getD`; every access in the embedding is
within bounds, so this value is never observed. -/
def defaultMeta : Meta := ⟨"", "", none, none⟩

/-- A result record returned by
`retriever/query_retriever.py::retrieve_top_k_chunks`:
`{"chunk": ..., "source": ..., "page": ..., "score": ...}`. -/
structure RetResult where
  chunk : String
  source : String
  page : Option Int
  score : ℚ
deriving DecidableEq, Repr

/-- Python list indexing `xs[i]`: a negative `i` counts from the end
(`xs[-1]` is the last element); out-of-range access raises `IndexError`. -/
def pyGet (xs : List α) (i : Int) : Except PyErr α :=
  if i < 0 then
    if (xs.length : Int) + i < 0 then .error .indexError
    else
      match xs[((xs.length : Int) + i).toNat]? with
      | some a => .ok a
      | none => .error .indexError
  else
    match xs[i.toNat]? with
    | some a => .ok a
    | none => .error .indexError

/-- Left-to-right filtering in the `Except` monad; the first raised error
propagates (models a Python list comprehension whose predicate can raise). -/
def exceptFilter (p : α → Except PyErr Bool) : List α → Except PyErr (List α)
  | [] => .ok []
  | x :: xs =>
    match p x with
    | .error e => .error e
    | .ok b =>
      match exceptFilter p xs with
      | .error e => .error e
      | .ok rest => .ok (if b then x :: rest else rest)

/-- Inner product of two vectors (FAISS `IndexFlatIP` similarity). -/
def ip (u v : List ℚ) : ℚ := (List.zipWith (· * ·) u v).sum

/-- Insert one `(id, score)` pair into a list sorted by descending score,
ties broken by ascending id (the deterministic order of exact flat-index
search). -/
def insertScored (x : Int × ℚ) : List (Int × ℚ) → List (Int × ℚ)
  | [] => [x]
  | y :: ys =>
    if x.2 > y.2 ∨ (x.2 = y.2 ∧ x.1 ≤ y.1) then x :: y :: ys
    else y :: insertScored x ys

/-- Sort `(id, score)` pairs by descending score (ties by ascending id). -/
def sortScored : List (Int × ℚ) → List (Int × ℚ)
  | [] => []
  | x :: xs => insertScored x (sortScored xs)

/-- The score FAISS reports for padded (missing) neighbours; the id
reported for them is `-1`. -/
def sentinelScore : ℚ := -340282346638528859811704183484516925440

/-- FAISS `IndexFlat.search` over stored vectors `xb` with query `q`:
returns exactly `k` `(id, score)` pairs — the stored vectors ranked by
descending inner product, padded with `(-1, sentinelScore)` when fewer
than `k` vectors are stored. -/
def faissSearch (xb : List (List ℚ)) (q : List ℚ) (k : Nat) : List (Int × ℚ) :=
  let scored := (List.range xb.length).map (fun (i : Nat) => ((i : Int), ip q (xb.getD i [])))
  let top := (sortScored scored).take k
  top ++ List.replicate (k - top.length) (-1, sentinelScore)

/-- The result-building loop of `retrieve_top_k_chunks` (lines 80–88):
`for idx, score in zip(indices[0], scores[0]): meta = metadata_to_use[idx]; ...`.
The list access uses Python indexing, so `idx = -1` wraps to the last
record and an access on an empty table raises `IndexError`. -/
def buildResults (metadata : List Meta) : List (Int × ℚ) → Except PyErr (List RetResult)
  | [] => .ok []
  | (idx, score) :: rest =>
    match pyGet metadata idx with
    | .error e => .error e
    | .ok m =>
      match buildResults metadata rest with
      | .error e => .error e
      | .ok rs => .ok ({ chunk := m.chunk, source := m.source, page := m.page, score := score } :: rs)

/-- The page-range test of `retrieve_top_k_chunks` (lines 45–48):
`start_page <= chunk_metadata[i]["page"] <= end_page`.  When the record's
page is `None`, the first comparison `int <= None` raises `TypeError`. -/
def pageCheck (metadata : List Meta) (sp ep : Int) (i : Nat) : Except PyErr Bool :=
  match (metadata.getD i defaultMeta).page with
  | none => .error .typeError
  | some p => .ok (decide (sp ≤ p) && decide (p ≤ ep))

/-- Lines 36–40 of `retrieve_top_k_chunks`: all row indices, then the
`pdf_name` filter.  Python truthiness of the optional string: `None` and
`""` both skip the filter. -/
def allowedAfterSource (chunk_metadata : List Meta) (pdf_name : Option String) : List Nat :=
  match pdf_name with
  | none => List.range chunk_metadata.length
  | some s =>
    if s = "" then List.range chunk_metadata.length
    else (List.range chunk_metadata.length).filter
      (fun i => (chunk_metadata.getD i defaultMeta).source == s)

/-- Lines 43–48 of `retrieve_top_k_chunks`: the `page_range` filter (a
`None` range — falsy — skips it; comparing against a `None` page raises
`TypeError`). -/
def allowedAfterPage (chunk_metadata : List Meta) (page_range : Option (Int × Int))
    (allowed : List Nat) : Except PyErr (List Nat) :=
  match page_range with
  | none => .ok allowed
  | some (sp, ep) => exceptFilter (pageCheck chunk_metadata sp ep) allowed

/-- Embedding of `retriever/query_retriever.py::retrieve_top_k_chunks`.

`embed` is the external `embedding_model.encode` composed with
`faiss.normalize_L2` (both outside the repository); `faiss_index` is the
list of stored vectors (`reconstruct_n(0, ntotal)` returns exactly this
list).  The steps mirror the source: start from all row indices, filter by
`pdf_name`, filter by `page_range`, and if any row was dropped build a
temporary index from the surviving vectors — `np.array([]).shape[1]` on an
empty survivor set raises `IndexError` — then search and map ids back
through the metadata in use. -/
def retrieve_top_k_chunks (embed : String → List ℚ) (query : String)
    (faiss_index : List (List ℚ)) (chunk_metadata : List Meta) (k : Nat)
    (pdf_name : Option String) (page_range : Option (Int × Int)) :
    Except PyErr (List RetResult) :=
  (allowedAfterPage chunk_metadata page_range (allowedAfterSource chunk_metadata pdf_name)).bind
    fun allowed2 =>
    if allowed2.length ≠ chunk_metadata.length then
      let filtered_vectors := allowed2.map (fun i => faiss_index.getD i [])
      let filtered_metadata := allowed2.map (fun i => chunk_metadata.getD i defaultMeta)
      if filtered_vectors = [] then .error .indexError
      else buildResults filtered_metadata (faissSearch filtered_vectors (embed query) k)
    else buildResults chunk_metadata (faissSearch faiss_index (embed query) k)

/-! ### Chunker (`utils/pdf_processing.py::chunk_text_by_tokens`) -/

/-- Normalize one Python slice bound against a list of length `len`:
negative bounds count from the end and clamp at `0`; positive bounds clamp
at `len`. -/
def pySliceNorm (len : Nat) (i : Int) : Nat :=
  if i < 0 then ((len : Int) + i).toNat else min i.toNat len

/-- Python list slicing `xs[a:b]` (step `1`). -/
def pySlice (xs : List α) (a b : Int) : List α :=
  (xs.drop (pySliceNorm xs.length a)).take (pySliceNorm xs.length b - pySliceNorm xs.length a)

/-- The `while start < len(tokens)` loop of `chunk_text_by_tokens`
(lines 63–68), with explicit fuel: each iteration appends the decoded
window `tokens[start : start + chunk_size]` and advances `start` by
`chunk_size - overlap`.  The Python loop has no other exit, so exhausted
fuel (`none`) witnesses that the loop is still running. -/
def chunkLoop (dec : List Nat → String) (tokens : List Nat) (chunk_size overlap : Int) :
    Nat → Int → List String → Option (List String)
  | 0, _, _ => none
  | fuel + 1, start, chunks =>
    if start < (tokens.length : Int) then
      chunkLoop dec tokens chunk_size overlap fuel (start + (chunk_size - overlap))
        (chunks ++ [dec (pySlice tokens start (start + chunk_size))])
    else some chunks

/-- Embedding of `chunk_text_by_tokens`: tokenize (external tiktoken
encoder `enc`), run the sliding-window loop, decoding each window with the
external decoder `dec`.  The source performs no validation of
`chunk_size`/`overlap`. -/
def chunk_text_by_tokens (enc : String → List Nat) (dec : List Nat → String)
    (text : String) (chunk_size overlap : Int) (fuel : Nat) : Option (List String) :=
  chunkLoop dec (enc text) chunk_size overlap fuel 0 []

/-! ### Conversation window (`app/rag_pipeline.py::process_api_request`) -/

/-- One conversation turn `{"role": ..., "content": ...}`. -/
structure Turn where
  role : String
  content : String
deriving DecidableEq, Repr

/-- `window_size = 6` (line 78: "A window of 3 questions means 6 items"). -/
def window_size : Nat := 6

/-- Lines 104–106: `if len(chat_history) > window_size:
chat_history = chat_history[-window_size:]`. -/
def trimWindow (h : List Turn) : List Turn :=
  if h.length > window_size then h.drop (h.length - window_size) else h

/-- The last `n` elements of a list. -/
def lastN (n : Nat) (l : List α) : List α := l.drop (l.length - n)

/-- One iteration of the question loop's history update (lines 100–106):
append the user turn, append the assistant turn, then trim. -/
def stepExchange (h : List Turn) (q a : String) : List Turn :=
  trimWindow (h ++ [⟨"user", q⟩, ⟨"assistant", a⟩])

/-- History after processing a list of (question, answer) exchanges. -/
def runExchanges (h : List Turn) (qas : List (String × String)) : List Turn :=
  qas.foldl (fun h qa => stepExchange h qa.1 qa.2) h

/-- All turns appended over the exchanges, oldest first. -/
def turnsOf : List (String × String) → List Turn
  | [] => []
  | (q, a) :: rest => ⟨"user", q⟩ :: ⟨"assistant", a⟩ :: turnsOf rest

/-- The history list observed immediately after each individual
`chat_history.append` call: the user-turn append, then the assistant-turn
append; the trim runs only after both appends of an exchange. -/
def appendStates (h : List Turn) : List (String × String) → List (List Turn)
  | [] => []
  | (q, a) :: rest =>
    (h ++ [⟨"user", q⟩]) :: (h ++ [⟨"user", q⟩, ⟨"assistant", a⟩]) ::
      appendStates (trimWindow (h ++ [⟨"user", q⟩, ⟨"assistant", a⟩])) rest

/-! ### Document cache (`app/api.py::get_or_create_document_index`) -/

/-- A cache entry: the FAISS index (its stored vectors) plus the chunk
metadata, as stored in `document_cache[doc_url]`. -/
structure Entry where
  index : List (List ℚ)
  metadata : List Meta
deriving DecidableEq, Repr

/-- `HTTPException(status_code=..., detail=...)`. -/
structure HTTPExc where
  status_code : Nat
  detail : String
deriving DecidableEq, Repr

/-- The `document_cache` dict: lookup by fingerprint (document URL). -/
def cacheLookup (cache : List (String × Entry)) (url : String) : Option Entry :=
  match cache with
  | [] => none
  | (u, e) :: rest => if u = url then some e else cacheLookup rest url

/-- `document_cache[doc_url] = entry`: the new binding shadows any older
one under `cacheLookup`. -/
def cacheInsert (cache : List (String × Entry)) (url : String) (e : Entry) :
    List (String × Entry) :=
  (url, e) :: cache

/-- The miss path of `get_or_create_document_index` (lines 90–128):
download the PDF (`requests.get`; a `RequestException` becomes an
`HTTPException` 400), then chunk/embed/index inside `try` (any failure —
including the `ValueError` raised when `process_single_pdf` returns no
chunks — becomes a 500), and store into `document_cache` only on success.
`download` is the outcome of the external HTTP fetch, `chunks` the
outcome of `process_single_pdf`, `embed` the external encoder (composed
with `faiss.normalize_L2`). -/
def buildDocument (download : Except String Unit) (chunks : Except String (List Meta))
    (embed : List String → List (List ℚ)) (doc_url : String)
    (cache : List (String × Entry)) : Except HTTPExc Entry × List (String × Entry) :=
  match download with
  | .error e => (.error ⟨400, "Failed to download PDF: " ++ e⟩, cache)
  | .ok _ =>
    match chunks with
    | .error e => (.error ⟨500, "Failed to process PDF: " ++ e⟩, cache)
    | .ok cs =>
      if cs = [] then
        (.error ⟨500,
          "Failed to process PDF: No content could be extracted from the PDF."⟩, cache)
      else
        (.ok ⟨embed (cs.map Meta.chunk), cs⟩,
          cacheInsert cache doc_url ⟨embed (cs.map Meta.chunk), cs⟩)

/-- Embedding of `get_or_create_document_index`: a cache hit returns the
cached entry with no build; a miss runs the build path.  The boolean
records whether the build path (download → chunk → embed → index) was
entered. -/
def get_or_create_document_index (download : Except String Unit)
    (chunks : Except String (List Meta)) (embed : List String → List (List ℚ))
    (doc_url : String) (cache : List (String × Entry)) :
    Except HTTPExc Entry × List (String × Entry) × Bool :=
  match cacheLookup cache doc_url with
  | some entry => (.ok entry, cache, false)
  | none =>
    ((buildDocument download chunks embed doc_url cache).1,
     (buildDocument download chunks embed doc_url cache).2, true)

/-! ### Interleaving two concurrent requests through the cache

`get_or_create_document_index` reads `document_cache` at line 86 and
writes it at line 118, with blocking I/O (download, embedding) in
between and no lock or single-flight mechanism.  The machine below runs
two requests for the same fingerprint, each decomposed at that
read/write boundary, under an explicit interleaving schedule. -/

/-- Program counter of one request: `ready` = about to run the line-86
cache check; `building` = passed the check, about to run the build and
the line-118 store; `finished` = returned. -/
inductive TaskPc where
  | ready
  | building
  | finished (r : Except HTTPExc Entry)
deriving Repr

/-- Shared cache, the two requests' program counters, and how many times
the build path has run. -/
structure SysState where
  cache : List (String × Entry)
  pc1 : TaskPc
  pc2 : TaskPc
  builds : Nat
deriving Repr

/-- One step of a single request: the cache check, or the build-and-store
(counted as one build invocation). -/
def taskStep (download : Except String Unit) (chunks : Except String (List Meta))
    (embed : List String → List (List ℚ)) (url : String)
    (cache : List (String × Entry)) :
    TaskPc → TaskPc × List (String × Entry) × Nat
  | .ready =>
    match cacheLookup cache url with
    | some entry => (.finished (.ok entry), cache, 0)
    | none => (.building, cache, 0)
  | .building =>
    ((.finished (buildDocument download chunks embed url cache).1),
     (buildDocument download chunks embed url cache).2, 1)
  | .finished r => (.finished r, cache, 0)

/-- Interleaving scheduler: `true` steps the first request, `false` the
second; both requests target the same fingerprint with the same external
outcomes. -/
def sysStep (download : Except String Unit) (chunks : Except String (List Meta))
    (embed : List String → List (List ℚ)) (url : String)
    (s : SysState) (first : Bool) : SysState :=
  if first then
    ⟨(taskStep download chunks embed url s.cache s.pc1).2.1,
     (taskStep download chunks embed url s.cache s.pc1).1, s.pc2,
     s.builds + (taskStep download chunks embed url s.cache s.pc1).2.2⟩
  else
    ⟨(taskStep download chunks embed url s.cache s.pc2).2.1, s.pc1,
     (taskStep download chunks embed url s.cache s.pc2).1,
     s.builds + (taskStep download chunks embed url s.cache s.pc2).2.2⟩

/-- Run a schedule from a state. -/
def runSched (download : Except String Unit) (chunks : Except String (List Meta))
    (embed : List String → List (List ℚ)) (url : String)
    (sched : List Bool) (s : SysState) : SysState :=
  sched.foldl (sysStep download chunks embed url) s

/-- Both requests at the cache check, empty cache, no builds yet. -/
def initSys : SysState := ⟨[], .ready, .ready, 0⟩

/-! ### Indexing pipeline (`embeddings/generate_embeddings.py`,
`app/rag_pipeline.py`) -/

/-- Embedding of `process_single_pdf`: extract and clean (both external;
`cleaned` is the cleaned text), chunk with `chunk_size=512, overlap=64`,
and attach metadata — `page` is hardcoded to `None` ("page (None for
now)" per the module docstring), `clause_number` comes from the regex
heuristic `extract_clause_number_from_text` (abstracted as
`extract_clause`). -/
def process_single_pdf (enc : String → List Nat) (dec : List Nat → String)
    (extract_clause : String → Option String) (cleaned : String)
    (pdf_name : String) (fuel : Nat) : Option (List Meta) :=
  match chunk_text_by_tokens enc dec cleaned 512 64 fuel with
  | none => none
  | some chunks =>
    some (chunks.map (fun c =>
      { chunk := c, source := pdf_name, page := none, clause_number := extract_clause c }))

/-- One question/answer record of `process_api_request`'s result. -/
structure QA where
  question : String
  answer : String
deriving DecidableEq, Repr

/-- Canned answer when retrieval yields no context (line 88). -/
def noInfoMsg : String :=
  "I could not find relevant information in the document to answer this question."

/-- Message of the `ValueError` raised when `create_index_from_url`
returns `(None, None)` (line 69). -/
def noContentMsg : String := "Could not extract any content from the document."

/-- Embedding of `app/rag_pipeline.py::create_index_from_url`: download
(a `RequestException` becomes a `ConnectionError` whose message the
caller stringifies), run `process_single_pdf` (its result is `chunks`),
return `(None, None)` — modelled as `none` — when no chunks were
extracted, otherwise embed and build the in-memory index. -/
def create_index_from_url (download : Except String Unit) (chunks : List Meta)
    (embed : List String → List (List ℚ)) :
    Except String (Option (List (List ℚ) × List Meta)) :=
  match download with
  | .error e => .error ("Failed to download PDF: " ++ e)
  | .ok _ =>
    if chunks = [] then .ok none
    else .ok (some (embed (chunks.map Meta.chunk), chunks))

/-- The per-question loop of `process_api_request` (lines 81–106):
retrieve with `k=3` and no filters, join the chunk texts into the
context, answer via the external generator `gen` (or the canned message
when the context is empty), record the QA pair, then append both turns
and trim the history.  An exception inside the loop is not caught by the
function, so a retrieval error propagates. -/
def processQuestions (embedQ : String → List ℚ)
    (gen : List Turn → String → String → String)
    (faiss_index : List (List ℚ)) (chunk_metadata : List Meta) :
    List String → List Turn → List QA → Except PyErr (List QA)
  | [], _, acc => .ok acc
  | question :: rest, hist, acc =>
    (retrieve_top_k_chunks embedQ question faiss_index chunk_metadata 3 none none).bind
      fun retrieved =>
      processQuestions embedQ gen faiss_index chunk_metadata rest
        (trimWindow (hist ++ [⟨"user", question⟩,
          ⟨"assistant",
            if String.intercalate "\n\n" (retrieved.map RetResult.chunk) = "" then noInfoMsg
            else gen hist question (String.intercalate "\n\n" (retrieved.map RetResult.chunk))⟩]))
        (acc ++ [⟨question,
          if String.intercalate "\n\n" (retrieved.map RetResult.chunk) = "" then noInfoMsg
          else gen hist question (String.intercalate "\n\n" (retrieved.map RetResult.chunk))⟩])

/-- Embedding of `app/rag_pipeline.py::process_api_request`: build the
index (any exception there is caught and turned into one
`{question, answer: str(e)}` record per question), then run the question
loop with an initially empty chat history. -/
def process_api_request (download : Except String Unit) (chunks : List Meta)
    (embed : List String → List (List ℚ)) (embedQ : String → List ℚ)
    (gen : List Turn → String → String → String)
    (questions : List String) : Except PyErr (List QA) :=
  match create_index_from_url download chunks embed with
  | .error e => .ok (questions.map fun q => ⟨q, e⟩)
  | .ok none => .ok (questions.map fun q => ⟨q, noContentMsg⟩)
  | .ok (some (faiss_index, chunk_metadata)) =>
    processQuestions embedQ gen faiss_index chunk_metadata questions [] []

/-! ### Helper lemmas about the retrieval model -/

theorem length_insertScored (x : Int × ℚ) (l : List (Int × ℚ)) :
    (insertScored x l).length = l.length + 1 := by
  induction l with
  | nil => rfl
  | cons y ys ih =>
    unfold insertScored
    split
    · simp
    · simp [ih]

theorem mem_insertScored {y x : Int × ℚ} {l : List (Int × ℚ)}
    (h : y ∈ insertScored x l) : y = x ∨ y ∈ l := by
  induction l with
  | nil => exact .inl (List.mem_singleton.mp h)
  | cons z zs ih =>
    unfold insertScored at h
    split at h
    · rcases List.mem_cons.mp h with h | h
      · exact .inl h
      · exact .inr h
    · rcases List.mem_cons.mp h with h | h
      · exact .inr (h ▸ List.mem_cons_self z zs)
      · rcases ih h with h | h
        · exact .inl h
        · exact .inr (List.mem_cons_of_mem _ h)

theorem length_sortScored (l : List (Int × ℚ)) : (sortScored l).length = l.length := by
  induction l with
  | nil => rfl
  | cons x xs ih => simp [sortScored, length_insertScored, ih]

theorem mem_sortScored {y : Int × ℚ} {l : List (Int × ℚ)}
    (h : y ∈ sortScored l) : y ∈ l := by
  induction l with
  | nil => exact absurd h (by simp [sortScored])
  | cons x xs ih =>
    rcases mem_insertScored (show y ∈ insertScored x (sortScored xs) from h) with h | h
    · exact h ▸ List.mem_cons_self x xs
    · exact List.mem_cons_of_mem _ (ih h)

theorem length_faissSearch (xb : List (List ℚ)) (q : List ℚ) (k : Nat) :
    (faissSearch xb q k).length = k := by
  unfold faissSearch
  simp only [List.length_append, List.length_take, length_sortScored, List.length_map,
    List.length_range, List.length_replicate]
  omega

theorem faissSearch_idx {xb : List (List ℚ)} {q : List ℚ} {k : Nat} {p : Int × ℚ}
    (h : p ∈ faissSearch xb q k) :
    (0 ≤ p.1 ∧ p.1 < (xb.length : Int)) ∨ p.1 = -1 := by
  unfold faissSearch at h
  rcases List.mem_append.mp h with h | h
  · have h2 := mem_sortScored (List.mem_of_mem_take h)
    rcases List.mem_map.mp h2 with ⟨i, hi, rfl⟩
    left
    refine ⟨Int.ofNat_nonneg i, ?_⟩
    show ((i : Int)) < ((xb.length : Nat) : Int)
    exact_mod_cast List.mem_range.mp hi
  · right
    have := (List.eq_of_mem_replicate h)
    rw [this]

theorem pyGet_ok_mem {xs : List α} {i : Int} {a : α} (h : pyGet xs i = .ok a) : a ∈ xs := by
  unfold pyGet at h
  by_cases h0 : i < 0
  · rw [if_pos h0] at h
    by_cases h1 : (xs.length : Int) + i < 0
    · rw [if_pos h1] at h
      cases h
    · rw [if_neg h1] at h
      cases hx : xs[((xs.length : Int) + i).toNat]? with
      | none => rw [hx] at h; cases h
      | some b =>
        rw [hx] at h
        cases h
        exact List.getElem?_mem hx
  · rw [if_neg h0] at h
    cases hx : xs[i.toNat]? with
    | none => rw [hx] at h; cases h
    | some b =>
      rw [hx] at h
      cases h
      exact List.getElem?_mem hx

theorem pyGet_ok_of_valid {xs : List α} {i : Int}
    (h : (0 ≤ i ∧ i < (xs.length : Int)) ∨ (i = -1 ∧ xs ≠ [])) :
    ∃ a, pyGet xs i = .ok a := by
  unfold pyGet
  rcases h with ⟨h0, h1⟩ | ⟨rfl, h1⟩
  · rw [if_neg (by omega)]
    have hj : i.toNat < xs.length := by omega
    rw [List.getElem?_eq_getElem hj]
    exact ⟨_, rfl⟩
  · have hpos : 0 < xs.length := List.length_pos.mpr h1
    rw [if_pos (by omega)]
    rw [if_neg (by omega)]
    have hj : ((xs.length : Int) + (-1)).toNat < xs.length := by omega
    rw [List.getElem?_eq_getElem hj]
    exact ⟨_, rfl⟩

theorem exceptFilter_ok_sublist {p : α → Except PyErr Bool} {l l' : List α}
    (h : exceptFilter p l = .ok l') : l'.Sublist l := by
  induction l generalizing l' with
  | nil =>
    unfold exceptFilter at h
    cases h
    exact List.Sublist.refl _
  | cons x xs ih =>
    unfold exceptFilter at h
    cases hp : p x with
    | error e => rw [hp] at h; cases h
    | ok b =>
      rw [hp] at h
      cases hr : exceptFilter p xs with
      | error e => rw [hr] at h; cases h
      | ok rest =>
        rw [hr] at h
        cases h
        cases b with
        | true => exact List.Sublist.cons₂ x (ih hr)
        | false => exact List.Sublist.cons x (ih hr)

theorem exceptFilter_ok_mem {p : α → Except PyErr Bool} {l l' : List α}
    (h : exceptFilter p l = .ok l') : ∀ i ∈ l', p i = .ok true := by
  induction l generalizing l' with
  | nil =>
    unfold exceptFilter at h
    cases h
    intro i hi
    cases hi
  | cons x xs ih =>
    unfold exceptFilter at h
    cases hp : p x with
    | error e => rw [hp] at h; cases h
    | ok b =>
      rw [hp] at h
      cases hr : exceptFilter p xs with
      | error e => rw [hr] at h; cases h
      | ok rest =>
        rw [hr] at h
        cases h
        intro i hi
        cases b with
        | true =>
          rcases List.mem_cons.mp hi with rfl | hi
          · exact hp
          · exact ih hr i hi
        | false => exact ih hr i hi

theorem allowedAfterSource_sublist (md : List Meta) (pdf : Option String) :
    (allowedAfterSource md pdf).Sublist (List.range md.length) := by
  unfold allowedAfterSource
  cases pdf with
  | none => exact List.Sublist.refl _
  | some s =>
    dsimp only
    split
    · exact List.Sublist.refl _
    · exact List.filter_sublist _

theorem allowedAfterSource_src {md : List Meta} {s : String} (hs : s ≠ "") {i : Nat}
    (h : i ∈ allowedAfterSource md (some s)) :
    (md.getD i defaultMeta).source = s := by
  have h' : i ∈ (List.range md.length).filter
      (fun i => (md.getD i defaultMeta).source == s) := by
    simpa [allowedAfterSource, hs] using h
  have := List.of_mem_filter h'
  simpa using this

theorem allowedAfterPage_ok_sublist {md : List Meta} {pr : Option (Int × Int)}
    {l l' : List Nat} (h : allowedAfterPage md pr l = .ok l') : l'.Sublist l := by
  unfold allowedAfterPage at h
  cases pr with
  | none => cases h; exact List.Sublist.refl _
  | some se =>
    obtain ⟨sp, ep⟩ := se
    exact exceptFilter_ok_sublist h

theorem allowedAfterPage_ok_page {md : List Meta} {sp ep : Int} {l l' : List Nat}
    (h : allowedAfterPage md (some (sp, ep)) l = .ok l') {i : Nat} (hi : i ∈ l') :
    ∃ p, (md.getD i defaultMeta).page = some p ∧ sp ≤ p ∧ p ≤ ep := by
  have hcheck := exceptFilter_ok_mem h i hi
  unfold pageCheck at hcheck
  cases hpage : (md.getD i defaultMeta).page with
  | none => rw [hpage] at hcheck; cases hcheck
  | some p =>
    rw [hpage] at hcheck
    refine ⟨p, rfl, ?_, ?_⟩
    · have : (decide (sp ≤ p) && decide (p ≤ ep)) = true := by
        injection hcheck
      simp at this
      exact this.1
    · have : (decide (sp ≤ p) && decide (p ≤ ep)) = true := by
        injection hcheck
      simp at this
      exact this.2

theorem buildResults_ok_mem {md : List Meta} {hits : List (Int × ℚ)} {rs : List RetResult}
    (h : buildResults md hits = .ok rs) :
    ∀ r ∈ rs, ∃ m ∈ md, r.chunk = m.chunk ∧ r.source = m.source ∧ r.page = m.page := by
  induction hits generalizing rs with
  | nil =>
    unfold buildResults at h
    cases h
    intro r hr
    cases hr
  | cons hit rest ih =>
    obtain ⟨idx, score⟩ := hit
    unfold buildResults at h
    cases hg : pyGet md idx with
    | error e => rw [hg] at h; cases h
    | ok m =>
      rw [hg] at h
      cases hr : buildResults md rest with
      | error e => rw [hr] at h; cases h
      | ok rs0 =>
        rw [hr] at h
        cases h
        intro r hrr
        rcases List.mem_cons.mp hrr with rfl | hm
        · exact ⟨m, pyGet_ok_mem hg, rfl, rfl, rfl⟩
        · exact ih hr r hm

theorem buildResults_ok_of_valid {md : List Meta} {hits : List (Int × ℚ)}
    (hmd : md ≠ [])
    (hvalid : ∀ p ∈ hits, (0 ≤ p.1 ∧ p.1 < (md.length : Int)) ∨ p.1 = -1) :
    ∃ rs, buildResults md hits = .ok rs ∧ rs.length = hits.length := by
  induction hits with
  | nil => exact ⟨[], rfl, rfl⟩
  | cons hit rest ih =>
    obtain ⟨idx, score⟩ := hit
    obtain ⟨a, ha⟩ := @pyGet_ok_of_valid Meta md idx (by
      rcases hvalid (idx, score) (List.mem_cons_self _ _) with h | h
      · exact .inl h
      · exact .inr ⟨h, hmd⟩)
    obtain ⟨rs, hrs, hlen⟩ := ih (fun p hp => hvalid p (List.mem_cons_of_mem _ hp))
    refine ⟨{ chunk := a.chunk, source := a.source, page := a.page, score := score } :: rs,
      ?_, ?_⟩
    · unfold buildResults
      rw [ha, hrs]
    · simp [hlen]

theorem retrieve_nofilter_ok (embed : String → List ℚ) (query : String)
    (xb : List (List ℚ)) (md : List Meta) (k : Nat)
    (hmd : md ≠ []) (hlen : xb.length = md.length) :
    ∃ rs, retrieve_top_k_chunks embed query xb md k none none = .ok rs ∧ rs.length = k := by
  obtain ⟨rs, hrs, hl⟩ := @buildResults_ok_of_valid md
      (faissSearch xb (embed query) k) hmd (fun p hp => by
        rcases faissSearch_idx hp with h | h
        · rw [hlen] at h
          exact .inl h
        · exact .inr h)
  refine ⟨rs, ?_, by rw [hl, length_faissSearch]⟩
  have heq : retrieve_top_k_chunks embed query xb md k none none =
      buildResults md (faissSearch xb (embed query) k) := by
    unfold retrieve_top_k_chunks allowedAfterPage allowedAfterSource
    simp [Except.bind]
  rw [heq]
  exact hrs

/-! ### Claim theorems: retrieval (C2–C5) -/

/-- C2 counterexample: with one stored vector (`n = 1`) and `k = 2`,
`retrieve_top_k_chunks` does not return the single available result — it
returns two records: FAISS pads the missing hit with id `-1`, and Python
indexing wraps `-1` to the last metadata row, fabricating a duplicate
record carrying the sentinel score. -/
theorem C2_counterexample :
    retrieve_top_k_chunks (fun _ => [1]) "q" [[1]]
        [{ chunk := "t", source := "s.pdf", page := some 1, clause_number := none }]
        2 none none =
      .ok [{ chunk := "t", source := "s.pdf", page := some 1, score := 1 },
           { chunk := "t", source := "s.pdf", page := some 1, score := sentinelScore }] := by
  norm_num [retrieve_top_k_chunks, allowedAfterPage, allowedAfterSource, faissSearch,
    sortScored, insertScored, buildResults, pyGet, ip, List.range_succ, exceptFilter,
    Except.bind]

/-- C2 (amended): for a built index with `n ≥ 1` stored vectors aligned
with its metadata and any `k`, an unfiltered `retrieve_top_k_chunks`
returns exactly `k` records without raising — when `k > n` the extra
`k - n` records are padded duplicates (id `-1` wraps to the last row),
not the `n` available results alone. -/
theorem C2_overfetch_returns_k (embed : String → List ℚ) (query : String)
    (xb : List (List ℚ)) (md : List Meta) (k : Nat)
    (hmd : md ≠ []) (hlen : xb.length = md.length) :
    (retrieve_top_k_chunks embed query xb md k none none).map List.length = .ok k := by
  obtain ⟨rs, hrs, hl⟩ := retrieve_nofilter_ok embed query xb md k hmd hlen
  rw [hrs]
  simp [Except.map, hl]

/-- Witness for C2 (amended) at a concrete index: one stored vector,
`k = 5`. -/
theorem C2_overfetch_returns_k_witness :
    (retrieve_top_k_chunks (fun _ => [1]) "q" [[1]]
        [{ chunk := "t", source := "s.pdf", page := some 1, clause_number := none }]
        5 none none).map List.length = .ok 5 :=
  C2_overfetch_returns_k (fun _ => [1]) "q" [[1]]
    [{ chunk := "t", source := "s.pdf", page := some 1, clause_number := none }] 5
    (by decide) (by decide)

/-- C3 counterexample: the code has no empty/blank-query guard — with an
empty query string it still embeds and searches, here returning three
records (two of them padded duplicates) instead of an empty sequence. -/
theorem C3_counterexample :
    retrieve_top_k_chunks (fun _ => [1]) "" [[1]]
        [{ chunk := "t", source := "s.pdf", page := some 1, clause_number := none }]
        3 none none =
      .ok [{ chunk := "t", source := "s.pdf", page := some 1, score := 1 },
           { chunk := "t", source := "s.pdf", page := some 1, score := sentinelScore },
           { chunk := "t", source := "s.pdf", page := some 1, score := sentinelScore }] := by
  norm_num [retrieve_top_k_chunks, allowedAfterPage, allowedAfterSource, faissSearch,
    sortScored, insertScored, buildResults, pyGet, ip, List.range_succ, exceptFilter,
    Except.bind]

/-- C3 (amended): `retrieve_top_k_chunks` applies no empty-query check:
for the empty query over a nonempty aligned index with no filters it
returns `k` records, exactly as for any other query, rather than an empty
sequence. -/
theorem C3_blank_query_still_searches (embed : String → List ℚ)
    (xb : List (List ℚ)) (md : List Meta) (k : Nat)
    (hmd : md ≠ []) (hlen : xb.length = md.length) :
    (retrieve_top_k_chunks embed "" xb md k none none).map List.length = .ok k := by
  obtain ⟨rs, hrs, hl⟩ := retrieve_nofilter_ok embed "" xb md k hmd hlen
  rw [hrs]
  simp [Except.map, hl]

/-- Witness for C3 (amended): empty query, one stored vector, `k = 3`. -/
theorem C3_blank_query_still_searches_witness :
    (retrieve_top_k_chunks (fun _ => [1]) "" [[1]]
        [{ chunk := "t", source := "s.pdf", page := some 1, clause_number := none }]
        3 none none).map List.length = .ok 3 :=
  C3_blank_query_still_searches (fun _ => [1]) [[1]]
    [{ chunk := "t", source := "s.pdf", page := some 1, clause_number := none }] 3
    (by decide) (by decide)

/-- C4 counterexample: a source filter matching zero rows of a nonempty
metadata table raises `IndexError` (`np.array([]).shape[1]` on the empty
filtered-vector array), instead of returning an empty sequence. -/
theorem C4_counterexample :
    retrieve_top_k_chunks (fun _ => [1]) "q" [[1]]
        [{ chunk := "t", source := "a.pdf", page := some 1, clause_number := none }]
        3 (some "b.pdf") none = .error .indexError := by
  norm_num [retrieve_top_k_chunks, allowedAfterPage, allowedAfterSource, pyGet,
    List.range_succ, exceptFilter, Except.bind, defaultMeta, List.filter,
    (by decide : ("a.pdf" == "b.pdf") = false), (by decide : ("b.pdf" = "") = False)]

/-- C4 (amended): whenever the requested source filter matches zero rows
of a nonempty metadata table, `retrieve_top_k_chunks` raises `IndexError`
(accessing `shape[1]` of the empty `np.array`), not an empty result. -/
theorem C4_zero_match_filter_raises (embed : String → List ℚ) (query : String)
    (xb : List (List ℚ)) (md : List Meta) (k : Nat) (s : String)
    (hmd : md ≠ []) (hs : s ≠ "") (hnm : ∀ m ∈ md, m.source ≠ s) :
    retrieve_top_k_chunks embed query xb md k (some s) none = .error .indexError := by
  have hempty : allowedAfterSource md (some s) = [] := by
    simp only [allowedAfterSource]
    rw [if_neg hs]
    rw [List.filter_eq_nil_iff]
    intro i hi
    have hilt := List.mem_range.mp hi
    have hmem : md.getD i defaultMeta ∈ md := by
      rw [List.getD_eq_getElem md defaultMeta hilt]
      exact List.getElem_mem hilt
    simpa using hnm _ hmem
  have hpos : 0 < md.length := List.length_pos.mpr hmd
  have hstep : allowedAfterPage md none (allowedAfterSource md (some s)) = .ok [] := by
    rw [hempty]
    rfl
  unfold retrieve_top_k_chunks
  rw [hstep]
  simp only [Except.bind, List.length_nil, List.map_nil]
  rw [if_pos (by omega)]
  rfl

/-- Witness for C4 (amended): a one-row table whose source does not match
the filter. -/
theorem C4_zero_match_filter_raises_witness :
    retrieve_top_k_chunks (fun _ => [1]) "q" [[1]]
        [{ chunk := "t", source := "a.pdf", page := some 1, clause_number := none }]
        7 (some "zz.pdf") none = .error .indexError :=
  C4_zero_match_filter_raises (fun _ => [1]) "q" [[1]]
    [{ chunk := "t", source := "a.pdf", page := some 1, clause_number := none }] 7 "zz.pdf"
    (by decide) (by decide) (by decide)

/-- C5: filter correctness — every record `retrieve_top_k_chunks` returns
under a (truthy) source filter carries exactly the requested source, and
every record returned under a page-range filter has a page inside the
inclusive range. -/
theorem C5_filter_correctness (embed : String → List ℚ) (query : String)
    (xb : List (List ℚ)) (md : List Meta) (k : Nat) (pdf_name : Option String)
    (page_range : Option (Int × Int)) (rs : List RetResult)
    (h : retrieve_top_k_chunks embed query xb md k pdf_name page_range = .ok rs) :
    ∀ r ∈ rs,
      (∀ s, pdf_name = some s → s ≠ "" → r.source = s) ∧
      (∀ a b, page_range = some (a, b) → ∃ p, r.page = some p ∧ a ≤ p ∧ p ≤ b) := by
  unfold retrieve_top_k_chunks at h
  cases hA : allowedAfterPage md page_range (allowedAfterSource md pdf_name) with
  | error e =>
    rw [hA] at h
    exact absurd h (by simp [Except.bind])
  | ok allowed2 =>
    rw [hA] at h
    simp only [Except.bind] at h
    have hrow : ∀ i ∈ allowed2,
        (∀ s, pdf_name = some s → s ≠ "" → (md.getD i defaultMeta).source = s) ∧
        (∀ a b, page_range = some (a, b) →
          ∃ p, (md.getD i defaultMeta).page = some p ∧ a ≤ p ∧ p ≤ b) := by
      intro i hi
      constructor
      · intro s hpdf hsne
        subst hpdf
        exact allowedAfterSource_src hsne ((allowedAfterPage_ok_sublist hA).subset hi)
      · intro a b hpr
        subst hpr
        exact allowedAfterPage_ok_page hA hi
    by_cases hl : allowed2.length ≠ md.length
    · rw [if_pos hl] at h
      by_cases hfv : allowed2.map (fun i => xb.getD i []) = []
      · rw [if_pos hfv] at h
        cases h
      · rw [if_neg hfv] at h
        intro r hr
        obtain ⟨m, hm, hc, hsrc, hpg⟩ := buildResults_ok_mem h r hr
        obtain ⟨i, hi, hmi⟩ := List.mem_map.mp hm
        have hrowi := hrow i hi
        constructor
        · intro s h1 h2
          rw [hsrc, ← hmi]
          exact hrowi.1 s h1 h2
        · intro a b h1
          rw [hpg, ← hmi]
          exact hrowi.2 a b h1
    · rw [if_neg hl] at h
      have hleq : allowed2.length = md.length := not_not.mp hl
      have hsub : allowed2.Sublist (List.range md.length) :=
        (allowedAfterPage_ok_sublist hA).trans (allowedAfterSource_sublist md pdf_name)
      have hall : allowed2 = List.range md.length :=
        hsub.eq_of_length (by simpa using hleq)
      intro r hr
      obtain ⟨m, hm, hc, hsrc, hpg⟩ := buildResults_ok_mem h r hr
      obtain ⟨j, hj⟩ := List.mem_iff_get.mp hm
      have hji : j.val ∈ allowed2 := by
        rw [hall]
        exact List.mem_range.mpr j.isLt
      have hgd : md.getD j.val defaultMeta = m := by
        rw [List.getD_eq_getElem md defaultMeta j.isLt]
        rw [← List.get_eq_getElem]
        exact hj
      have hrowi := hrow j.val hji
      constructor
      · intro s h1 h2
        rw [hsrc, ← hgd]
        exact hrowi.1 s h1 h2
      · intro a b h1
        rw [hpg, ← hgd]
        exact hrowi.2 a b h1

/-- Witness for C5 at a concrete filtered retrieval: the single returned
record under the filter `source = "a.pdf"` indeed has source `"a.pdf"`. -/
theorem C5_filter_correctness_witness :
    ({ chunk := "grace", source := "a.pdf", page := some 1, score := 1 } : RetResult).source =
      "a.pdf" :=
  ((C5_filter_correctness (fun _ => [1]) "q" [[1], [0]]
      [{ chunk := "grace", source := "a.pdf", page := some 1, clause_number := none },
       { chunk := "wait", source := "b.pdf", page := some 2, clause_number := none }]
      1 (some "a.pdf") none
      [{ chunk := "grace", source := "a.pdf", page := some 1, score := 1 }]
      (by norm_num [retrieve_top_k_chunks, allowedAfterPage, allowedAfterSource, faissSearch,
        sortScored, insertScored, buildResults, pyGet, ip, List.range_succ, exceptFilter,
        Except.bind, defaultMeta, List.filter,
        (by decide : ("b.pdf" == "a.pdf") = false),
        (by decide : ("a.pdf" = "") = False)]))
    { chunk := "grace", source := "a.pdf", page := some 1, score := 1 }
    (List.mem_singleton.mpr rfl)).1 "a.pdf" rfl (by decide)

/-! ### Claim theorems: chunker (C6) -/

/-- With `chunk_size ≤ overlap` the window start never advances past the
token count, so the chunking loop never reaches its exit for any fuel. -/
theorem chunkLoop_stuck (dec : List Nat → String) (tokens : List Nat)
    {cs ov : Int} (hle : cs ≤ ov) :
    ∀ (fuel : Nat) (start : Int), start < (tokens.length : Int) →
      ∀ acc, chunkLoop dec tokens cs ov fuel start acc = none := by
  intro fuel
  induction fuel with
  | zero =>
    intro start _ acc
    rfl
  | succ n ih =>
    intro start hstart acc
    unfold chunkLoop
    rw [if_pos hstart]
    exact ih _ (by omega) _

/-- C6 counterexample: `chunk_text_by_tokens` called with
`chunk_size = overlap = 5` on a text whose token sequence is empty does
not fail with any `InvalidParameter` error — it returns the empty chunk
sequence.  (The source performs no parameter validation at all and has no
such error.) -/
theorem C6_counterexample :
    chunk_text_by_tokens (fun _ => []) (fun _ => "x") "" 5 5 1 = some [] := by
  rfl

/-- C6 (amended): the chunker validates nothing.  With
`chunk_size ≤ overlap` it returns the empty chunk list (not an error) when
the text tokenizes to nothing, and for any text with at least one token
the `while` loop never terminates — the window start never advances — so
no chunk sequence (and no error) is ever produced, at any fuel. -/
theorem C6_chunker_no_validation (enc : String → List Nat) (dec : List Nat → String)
    (text : String) (cs ov : Int) (hle : cs ≤ ov) :
    (enc text = [] → ∀ fuel, chunk_text_by_tokens enc dec text cs ov (fuel + 1) = some []) ∧
    (enc text ≠ [] → ∀ fuel, chunk_text_by_tokens enc dec text cs ov fuel = none) := by
  constructor
  · intro hnil fuel
    unfold chunk_text_by_tokens chunkLoop
    rw [hnil]
    rw [if_neg (by simp)]
  · intro hne fuel
    unfold chunk_text_by_tokens
    have hpos : 0 < (enc text).length := List.length_pos.mpr hne
    exact chunkLoop_stuck dec (enc text) hle fuel 0 (by exact_mod_cast hpos) []

/-- Witness for C6 (amended): a one-token text with
`chunk_size = overlap = 1` is still unfinished after 9 loop iterations. -/
theorem C6_chunker_no_validation_witness :
    chunk_text_by_tokens (fun _ => [7]) (fun _ => "x") "t" 1 1 9 = none :=
  (C6_chunker_no_validation (fun _ => [7]) (fun _ => "x") "t" 1 1 (by decide)).2 (by decide) 9

/-! ### Claim theorems: conversation window (C7) -/

/-- The trim of lines 104–106 always yields the last `window_size`
elements (when the length is within the bound, dropping zero elements). -/
theorem trimWindow_eq_lastN (h : List Turn) : trimWindow h = lastN window_size h := by
  unfold trimWindow lastN
  split
  · rfl
  · rw [Nat.sub_eq_zero_of_le (by omega), List.drop_zero]

/-- Taking the last `k` of a list already trimmed to its last `k` before
appending more is the same as trimming once at the end. -/
theorem lastN_append_lastN (k : Nat) (xs ys : List α) :
    lastN k (lastN k xs ++ ys) = lastN k (xs ++ ys) := by
  unfold lastN
  rw [List.drop_append_eq_append_drop, List.drop_append_eq_append_drop, List.drop_drop]
  have h1 : xs.length - k + ((xs.drop (xs.length - k) ++ ys).length - k) =
      (xs ++ ys).length - k := by
    simp only [List.length_append, List.length_drop]
    omega
  have h2 : (xs.drop (xs.length - k) ++ ys).length - k - (xs.drop (xs.length - k)).length =
      (xs ++ ys).length - k - xs.length := by
    simp only [List.length_append, List.length_drop]
    omega
  rw [h1, h2]

/-- History built by folding the per-exchange update equals the last six
turns of everything appended. -/
theorem runExchanges_eq_lastN (qas : List (String × String)) :
    runExchanges [] qas = lastN window_size (turnsOf qas) := by
  have key : ∀ (l : List (String × String)) (ts : List Turn),
      runExchanges (lastN window_size ts) l = lastN window_size (ts ++ turnsOf l) := by
    intro l
    induction l with
    | nil =>
      intro ts
      simp [runExchanges, turnsOf]
    | cons qa rest ih =>
      intro ts
      obtain ⟨q, a⟩ := qa
      have hstep : stepExchange (lastN window_size ts) q a =
          lastN window_size (ts ++ [⟨"user", q⟩, ⟨"assistant", a⟩]) := by
        unfold stepExchange
        rw [trimWindow_eq_lastN, lastN_append_lastN]
      have hrec := ih (ts ++ [Turn.mk "user" q, Turn.mk "assistant" a])
      show runExchanges (stepExchange (lastN window_size ts) q a) rest = _
      rw [hstep, hrec]
      simp [turnsOf, List.append_assoc]
  have h0 := key qas []
  simpa [lastN] using h0

/-- C7 counterexample: the code trims only after appending both turns of
an exchange, so immediately after the 7th individual
`chat_history.append` (the user turn of the 4th exchange) the history
holds 7 turns — more than `2W = 6` — refuting "after any append the
window holds at most 2W turns". -/
theorem C7_counterexample :
    ((appendStates [] [("q1", "a1"), ("q2", "a2"), ("q3", "a3"), ("q4", "a4")]).getD 6
      []).length = 7 := by
  rfl

/-- C7 (amended): at every exchange boundary (after the user turn, the
assistant turn, and the trim of lines 104–106) the history equals the
last six of all turns appended so far — hence it holds at most 6 turns,
is a suffix of the appended turns in oldest-to-newest order, and
appending 10 turns (5 exchanges) leaves exactly the last 6; only the
state between the two appends of one exchange can transiently hold 7. -/
theorem C7_window_bounded_after_exchanges (qas : List (String × String)) :
    runExchanges [] qas = lastN window_size (turnsOf qas) ∧
    (runExchanges [] qas).length ≤ window_size ∧
    (runExchanges [] qas).IsSuffix (turnsOf qas) := by
  refine ⟨runExchanges_eq_lastN qas, ?_, ?_⟩
  · rw [runExchanges_eq_lastN qas]
    simp only [lastN, List.length_drop]
    omega
  · rw [runExchanges_eq_lastN qas]
    exact List.drop_suffix _ _

/-! ### Claim theorems: document cache (C8, C1) -/

/-- A failing build (download error, processing error, or empty
extraction) returns an error and leaves the cache untouched. -/
theorem buildDocument_fail (download : Except String Unit)
    (chunks : Except String (List Meta)) (embed : List String → List (List ℚ))
    (doc_url : String) (cache : List (String × Entry))
    (hfail : (∃ e, download = .error e) ∨ (∃ e, chunks = .error e) ∨ chunks = .ok []) :
    (buildDocument download chunks embed doc_url cache).1.isOk = false ∧
    (buildDocument download chunks embed doc_url cache).2 = cache := by
  rcases hfail with ⟨e, rfl⟩ | ⟨e, rfl⟩ | rfl
  · exact ⟨rfl, rfl⟩
  · cases download with
    | error e2 => exact ⟨rfl, rfl⟩
    | ok u => exact ⟨rfl, rfl⟩
  · cases download with
    | error e2 => exact ⟨rfl, rfl⟩
    | ok u => exact ⟨rfl, rfl⟩

/-- C8: when the build fails (download error, processing error, or
empty-extraction `ValueError`), `get_or_create_document_index` on a
cache miss propagates the error (`isOk = false`), leaves `document_cache`
unchanged, ran the build path, and a subsequent call for the same
fingerprint enters the build path again (the failure is not cached). -/
theorem C8_build_failure_not_cached (download : Except String Unit)
    (chunks : Except String (List Meta)) (embed : List String → List (List ℚ))
    (doc_url : String) (cache : List (String × Entry))
    (hmiss : cacheLookup cache doc_url = none)
    (hfail : (∃ e, download = .error e) ∨ (∃ e, chunks = .error e) ∨ chunks = .ok []) :
    (get_or_create_document_index download chunks embed doc_url cache).1.isOk = false ∧
    (get_or_create_document_index download chunks embed doc_url cache).2.1 = cache ∧
    (get_or_create_document_index download chunks embed doc_url cache).2.2 = true ∧
    (get_or_create_document_index download chunks embed doc_url
      (get_or_create_document_index download chunks embed doc_url cache).2.1).2.2 = true := by
  obtain ⟨hok, hc⟩ := buildDocument_fail download chunks embed doc_url cache hfail
  have hmain : get_or_create_document_index download chunks embed doc_url cache =
      ((buildDocument download chunks embed doc_url cache).1,
       (buildDocument download chunks embed doc_url cache).2, true) := by
    unfold get_or_create_document_index
    rw [hmiss]
  rw [hmain]
  refine ⟨hok, hc, rfl, ?_⟩
  show (get_or_create_document_index download chunks embed doc_url
      (buildDocument download chunks embed doc_url cache).2).2.2 = true
  rw [hc]
  unfold get_or_create_document_index
  rw [hmiss]

/-- Witness for C8: a download failure against an empty cache. -/
theorem C8_build_failure_not_cached_witness :
    (get_or_create_document_index (.error "boom") (.ok []) (fun _ => []) "u" []).1.isOk =
        false ∧
    (get_or_create_document_index (.error "boom") (.ok []) (fun _ => []) "u" []).2.1 = [] ∧
    (get_or_create_document_index (.error "boom") (.ok []) (fun _ => []) "u" []).2.2 = true ∧
    (get_or_create_document_index (.error "boom") (.ok []) (fun _ => []) "u"
      (get_or_create_document_index (.error "boom") (.ok []) (fun _ => []) "u" []).2.1).2.2 =
        true :=
  C8_build_failure_not_cached (.error "boom") (.ok []) (fun _ => []) "u" [] rfl
    (.inl ⟨"boom", rfl⟩)

/-- C1 counterexample: two concurrent first requests for the same unseen
fingerprint, interleaved so that both pass the line-86 cache check before
either reaches the line-118 store, each invoke the build: two build
invocations, not exactly one.  (The code has no lock or single-flight
mechanism around the check-then-act on `document_cache`.) -/
theorem C1_counterexample :
    (runSched (.ok ())
        (.ok [{ chunk := "c", source := "d.pdf", page := none, clause_number := none }])
        (fun _ => [[1]]) "u" [true, false, true, false] initSys).builds = 2 := by
  rfl

/-- C1 (amended): deduplication holds only without interleaving — when
the second request starts after the first has stored its entry, exactly
one build runs and both callers receive the same entry; interleaved first
requests can each invoke the build. -/
theorem C1_sequential_single_build (chunksList : List Meta)
    (embed : List String → List (List ℚ)) (url : String) (hne : chunksList ≠ []) :
    (runSched (.ok ()) (.ok chunksList) embed url [true, true, false] initSys).builds = 1 ∧
    (runSched (.ok ()) (.ok chunksList) embed url [true, true, false] initSys).pc1 =
      .finished (.ok ⟨embed (chunksList.map Meta.chunk), chunksList⟩) ∧
    (runSched (.ok ()) (.ok chunksList) embed url [true, true, false] initSys).pc2 =
      .finished (.ok ⟨embed (chunksList.map Meta.chunk), chunksList⟩) := by
  simp [runSched, initSys, sysStep, taskStep, buildDocument, cacheLookup, cacheInsert, hne]

/-- Witness for C1 (amended): one-chunk document, sequential schedule. -/
theorem C1_sequential_single_build_witness :
    (runSched (.ok ())
        (.ok [{ chunk := "c", source := "d.pdf", page := none, clause_number := none }])
        (fun _ => [[1]]) "u" [true, true, false] initSys).builds = 1 ∧
    (runSched (.ok ())
        (.ok [{ chunk := "c", source := "d.pdf", page := none, clause_number := none }])
        (fun _ => [[1]]) "u" [true, true, false] initSys).pc1 =
      .finished (.ok ⟨[[1]],
        [{ chunk := "c", source := "d.pdf", page := none, clause_number := none }]⟩) ∧
    (runSched (.ok ())
        (.ok [{ chunk := "c", source := "d.pdf", page := none, clause_number := none }])
        (fun _ => [[1]]) "u" [true, true, false] initSys).pc2 =
      .finished (.ok ⟨[[1]],
        [{ chunk := "c", source := "d.pdf", page := none, clause_number := none }]⟩) :=
  C1_sequential_single_build
    [{ chunk := "c", source := "d.pdf", page := none, clause_number := none }]
    (fun _ => [[1]]) "u" (by decide)

/-! ### Claim theorems: pipeline (C9, C10) -/

/-- C9: every chunk record produced by `process_single_pdf` has its
`page` field set to `None`, and consequently retrieval over metadata
built by this pipeline with any page-range filter raises `TypeError`
(the comparison `start_page <= None`) instead of filtering. -/
theorem C9_page_none_typeerror (enc : String → List Nat) (dec : List Nat → String)
    (extract_clause : String → Option String) (cleaned : String) (pdf_name : String)
    (fuel : Nat) (ms : List Meta)
    (hps : process_single_pdf enc dec extract_clause cleaned pdf_name fuel = some ms)
    (hne : ms ≠ []) :
    (∀ m ∈ ms, m.page = none) ∧
    ∀ (embedQ : String → List ℚ) (query : String) (xb : List (List ℚ)) (k : Nat) (a b : Int),
      retrieve_top_k_chunks embedQ query xb ms k none (some (a, b)) = .error .typeError := by
  have hpages : ∀ m ∈ ms, m.page = none := by
    unfold process_single_pdf at hps
    cases hc : chunk_text_by_tokens enc dec cleaned 512 64 fuel with
    | none => rw [hc] at hps; cases hps
    | some chunks =>
      rw [hc] at hps
      injection hps with hps
      subst hps
      intro m hm
      obtain ⟨c, hcm, rfl⟩ := List.mem_map.mp hm
      rfl
  refine ⟨hpages, ?_⟩
  intro embedQ query xb k a b
  have hfilter : ∀ l : List Nat, l ≠ [] → (∀ i ∈ l, i < ms.length) →
      exceptFilter (pageCheck ms a b) l = .error .typeError := by
    intro l hl hb
    cases l with
    | nil => cases hl rfl
    | cons x xs =>
      have hxlt := hb x (List.mem_cons_self _ _)
      have hx : (ms.getD x defaultMeta).page = none := by
        apply hpages
        rw [List.getD_eq_getElem ms defaultMeta hxlt]
        exact List.getElem_mem hxlt
      have hpc : pageCheck ms a b x = .error .typeError := by
        unfold pageCheck
        rw [hx]
      unfold exceptFilter
      rw [hpc]
  have hrange : List.range ms.length ≠ [] := by
    have hpos : 0 < ms.length := List.length_pos.mpr hne
    intro hcontra
    rw [List.range_eq_nil] at hcontra
    omega
  have hAP : allowedAfterPage ms (some (a, b)) (allowedAfterSource ms none) =
      .error .typeError := by
    show exceptFilter (pageCheck ms a b) (List.range ms.length) = .error .typeError
    exact hfilter _ hrange (fun i hi => List.mem_range.mp hi)
  unfold retrieve_top_k_chunks
  rw [hAP]
  rfl

/-- Witness for C9: a pipeline-built one-record metadata table; the
page-range query raises `TypeError`. -/
theorem C9_page_none_typeerror_witness :
    retrieve_top_k_chunks (fun _ => [1]) "q" [[1]]
        [{ chunk := "c", source := "d.pdf", page := none, clause_number := none }] 3 none
        (some (1, 2)) = .error .typeError :=
  (C9_page_none_typeerror (fun _ => [1, 2]) (fun _ => "c") (fun _ => none) "t" "d.pdf" 2
      [{ chunk := "c", source := "d.pdf", page := none, clause_number := none }] rfl
      (by decide)).2 (fun _ => [1]) "q" [[1]] 3 1 2

/-- Over a nonempty aligned index the per-question loop always succeeds
and appends exactly one QA record per question, in input order. -/
theorem processQuestions_questions (embedQ : String → List ℚ)
    (gen : List Turn → String → String → String) (xb : List (List ℚ)) (md : List Meta)
    (hmd : md ≠ []) (hlen : xb.length = md.length) :
    ∀ (qs : List String) (hist : List Turn) (acc : List QA),
      (processQuestions embedQ gen xb md qs hist acc).map (List.map QA.question) =
        .ok (acc.map QA.question ++ qs) := by
  intro qs
  induction qs with
  | nil =>
    intro hist acc
    simp [processQuestions, Except.map]
  | cons q rest ih =>
    intro hist acc
    obtain ⟨rs, hrs, _⟩ := retrieve_nofilter_ok embedQ q xb md 3 hmd hlen
    unfold processQuestions
    rw [hrs]
    simp only [Except.bind]
    rw [ih _ _]
    simp

/-- C10: `process_api_request` returns one `{question, answer}` record
per input question in input order (never raising, under the standing
assumption that the external encoder returns one vector per chunk); when
the download fails, every answer is the stringified error, and when
extraction yields no chunks, every answer is the no-content message. -/
theorem C10_one_answer_per_question (download : Except String Unit)
    (chunksList : List Meta) (embed : List String → List (List ℚ))
    (embedQ : String → List ℚ) (gen : List Turn → String → String → String)
    (questions : List String)
    (halign : (embed (chunksList.map Meta.chunk)).length = chunksList.length) :
    (process_api_request download chunksList embed embedQ gen questions).map
      (List.map QA.question) = .ok questions ∧
    (∀ e, download = .error e →
      process_api_request download chunksList embed embedQ gen questions =
        .ok (questions.map fun q => QA.mk q ("Failed to download PDF: " ++ e))) ∧
    (∀ u, download = .ok u → chunksList = [] →
      process_api_request download chunksList embed embedQ gen questions =
        .ok (questions.map fun q => QA.mk q noContentMsg)) := by
  cases download with
  | error e =>
    refine ⟨?_, ?_, ?_⟩
    · show (Except.ok (questions.map fun q =>
        QA.mk q ("Failed to download PDF: " ++ e))).map (List.map QA.question) = .ok questions
      simp [Except.map, List.map_map, Function.comp_def]
    · intro e' he'
      injection he' with h
      subst h
      rfl
    · intro u hu
      cases hu
  | ok u =>
    refine ⟨?_, ?_, ?_⟩
    · by_cases hc : chunksList = []
      · subst hc
        show (Except.ok (questions.map fun q => QA.mk q noContentMsg)).map
          (List.map QA.question) = .ok questions
        simp [Except.map, List.map_map, Function.comp_def]
      · have hproc : process_api_request (.ok u) chunksList embed embedQ gen questions =
            processQuestions embedQ gen (embed (chunksList.map Meta.chunk)) chunksList
              questions [] [] := by
          simp [process_api_request, create_index_from_url, hc]
        rw [hproc]
        have hq := processQuestions_questions embedQ gen
          (embed (chunksList.map Meta.chunk)) chunksList hc halign questions [] []
        simpa using hq
    · intro e he
      cases he
    · intro u' hu hc
      subst hc
      rfl

/-- Witness for C10: a failing download; both questions get the error
message as their answer, in order. -/
theorem C10_one_answer_per_question_witness :
    process_api_request (.error "boom") [] (fun _ => []) (fun _ => [1]) (fun _ _ _ => "ans")
        ["q1", "q2"] =
      .ok (["q1", "q2"].map fun q => QA.mk q ("Failed to download PDF: " ++ "boom")) :=
  (C10_one_answer_per_question (.error "boom") [] (fun _ => []) (fun _ => [1])
    (fun _ _ _ => "ans") ["q1", "q2"] rfl).2.1 "boom" rfl
